import Mathlib

/-!
Shallow embedding of the Reactive Components library (src/reactive.js).

JavaScript values are modelled by `JVal`: primitives carry their value,
objects and functions carry a reference id, so JavaScript strict equality
(`===` / `!==`) is exactly decidable equality on `JVal` (reference equality
for objects and functions, value equality for primitives).

DOM nodes are modelled by `RNode`; every node carries an `id : Nat` that
stands for the object identity of the underlying DOM node, so the `===`
comparison in `copyNode` is id equality.  Mutating DOM operations are
recorded in a `Mut` trace and the mutated subtree is returned as a value.
-/

inductive JVal : Type where
  | undef : JVal
  | jsNull : JVal
  | bool (b : Bool) : JVal
  | num (n : Int) : JVal
  | str (s : String) : JVal
  | obj (ref : Nat) : JVal
  | func (ref : Nat) : JVal
deriving DecidableEq, Repr

/-- JavaScript truthiness of a value. -/
def JVal.truthy : JVal → Bool
  | .undef => false
  | .jsNull => false
  | .bool b => b
  | .num n => n != 0
  | .str s => s != ""
  | .obj _ => true
  | .func _ => true

/-- A value is callable exactly when it is a function. -/
def JVal.isCallable : JVal → Bool
  | .func _ => true
  | _ => false

/-! ## StateStore (`_state`, src/reactive.js lines 176-189)

A JavaScript object with string keys, modelled as an association list of its
own properties in insertion order (JavaScript objects have no duplicate
keys; lookup and update act on the first occurrence). -/

abbrev StateMap := List (String × JVal)

/-- Property read `s[key]`: `none` models `undefined` for an absent key. -/
def lookupVal (st : StateMap) (key : String) : Option JVal :=
  (st.find? (fun p => p.1 == key)).map Prod.snd

/-- Property write `s[key] = value` for a key already present. -/
def updateFirst : StateMap → String → JVal → StateMap
  | [], _, _ => []
  | p :: rest, key, v =>
    if p.1 == key then (p.1, v) :: rest else p :: updateFirst rest key v

/-- `change(key, value)` of the `_state` closure:
`if (s.hasOwnProperty(key)) { const prev = s[key]; s[key] = value; return prev !== value; }
return false;` -/
def change (st : StateMap) (key : String) (value : JVal) : StateMap × Bool :=
  if st.any (fun p => p.1 == key) then
    (updateFirst st key value, ((lookupVal st key).getD .undef) != value)
  else (st, false)

/-! ## EffectHandler (src/reactive.js lines 51-174) -/

abbrev EffectMap := List (String × List JVal)

/-- Read `al[key]`: `none` for an absent key (`undefined`, which is falsy);
a present key always holds an array, which is truthy even when empty. -/
def lookupList (al : EffectMap) (key : String) : Option (List JVal) :=
  (al.find? (fun p => p.1 == key)).map Prod.snd

/-- Write `al[key] = l`, creating the property (at the end, in insertion
order) when absent. -/
def setList : EffectMap → String → List JVal → EffectMap
  | [], key, l => [(key, l)]
  | p :: rest, key, l =>
    if p.1 == key then (key, l) :: rest else p :: setList rest key l

structure EffectHandler where
  al : EffectMap
  globals : List JVal
deriving DecidableEq, Repr

/-- The guard `!action instanceof Function` in `add`/`addGlobal`.
JavaScript parses it as `(!action) instanceof Function`: the negation
produces a boolean primitive, and a primitive is never an `instanceof` any
constructor, so the test is `false` for every `action` whatsoever. -/
def notActionInstanceofFunction (_action : JVal) : Bool := false

/-- `add(key, action)`: the (dead) guard, then
`if (!al[key]) { al[key] = []; } al[key].push(action);` -/
def EffectHandler.add (h : EffectHandler) (key : String) (action : JVal) :
    Except String EffectHandler :=
  if notActionInstanceofFunction action then
    .error "action is not a function"
  else
    .ok { h with al := setList h.al key ((lookupList h.al key).getD [] ++ [action]) }

/-- `addGlobal(action)`: the (dead) guard, then `globals.push(action);` -/
def EffectHandler.addGlobal (h : EffectHandler) (action : JVal) :
    Except String EffectHandler :=
  if notActionInstanceofFunction action then
    .error "action is not a function"
  else
    .ok { h with globals := h.globals ++ [action] }

/-- `remove(key, action = false)`:
`if (!al[key]) return false;` (absent key: `undefined` is falsy; a present
empty array is truthy), then `if (!action) { al[key] = []; return true; }`,
else remove the first occurrence found by `indexOf`/`splice`. -/
def EffectHandler.remove (h : EffectHandler) (key : String) (action : JVal) :
    EffectHandler × Bool :=
  match lookupList h.al key with
  | none => (h, false)
  | some l =>
    if !action.truthy then
      ({ h with al := setList h.al key [] }, true)
    else if l.contains action then
      ({ h with al := setList h.al key (l.erase action) }, true)
    else (h, false)

/-- Observable dispatch events: a per-key listener called with no argument,
a global listener called with the changed-keys argument, or a `render()`. -/
inductive Ev : Type where
  | perKey (key : String) (action : JVal)
  | global (action : JVal) (changedKeys : List String)
  | render
deriving DecidableEq, Repr

/-- `dispatchIgnoreGlobals(key)`: `if (al[key]) al[key].forEach(f => f());` -/
def EffectHandler.dispatchIgnoreGlobals (h : EffectHandler) (key : String) : List Ev :=
  match lookupList h.al key with
  | some l => l.map (Ev.perKey key)
  | none => []

/-- `dispatchGlobals(key)`: `globals.forEach(f => f(key));`  `setState`
passes the changed-key array as the argument. -/
def EffectHandler.dispatchGlobals (h : EffectHandler) (changed : List String) : List Ev :=
  h.globals.map (fun g => Ev.global g changed)

/-! ## Component.setState (src/reactive.js lines 224-237) -/

/-- `keys.filter((key) => this._state.change(key, newState[key]))`:
the filter's predicate mutates the state, so the state is threaded through
the traversal; returns the final state and the changed keys in the order
the keys were supplied. -/
def collectChanged : StateMap → List (String × JVal) → StateMap × List String
  | st, [] => (st, [])
  | st, (k, v) :: rest =>
    let c := change st k v
    let r := collectChanged c.1 rest
    (r.1, if c.2 then k :: r.2 else r.2)

/-- `setState(newState)`: collect the changed keys, dispatch each changed
key's listeners ignoring globals, and when at least one key changed
dispatch globals once with the changed-key array and render. -/
def setState (st : StateMap) (h : EffectHandler) (newState : List (String × JVal)) :
    StateMap × List Ev :=
  let res := collectChanged st newState
  let evs := res.2.flatMap (fun key => h.dispatchIgnoreGlobals key)
  if res.2.length > 0 then
    (res.1, evs ++ h.dispatchGlobals res.2 ++ [Ev.render])
  else
    (res.1, evs)

/-! ## Render tree and reconciler (src/reactive.js lines 246-309) -/

/-- A DOM node: an element with tag, attributes (in document order),
child nodes and an optional owning component (the `node.component` expando,
a reference to a component, modelled by its id), or a text node.
The `id` field models the object identity of the node. -/
inductive RNode : Type where
  | elem (id : Nat) (tag : String) (attrs : List (String × String))
      (children : List RNode) (component : Option Nat) : RNode
  | text (id : Nat) (content : String) (component : Option Nat) : RNode

def RNode.id : RNode → Nat
  | .elem i _ _ _ _ => i
  | .text i _ _ => i

/-- `tagName`: `undefined` (here `none`) on a text node. -/
def RNode.tagName : RNode → Option String
  | .elem _ t _ _ _ => some t
  | .text _ _ _ => none

/-- `nodeType === Node.TEXT_NODE`. -/
def RNode.isText : RNode → Bool
  | .elem _ _ _ _ _ => false
  | .text _ _ _ => true

def RNode.component : RNode → Option Nat
  | .elem _ _ _ _ c => c
  | .text _ _ c => c

def RNode.attrs : RNode → List (String × String)
  | .elem _ _ a _ _ => a
  | .text _ _ _ => []

def RNode.children : RNode → List RNode
  | .elem _ _ _ ch _ => ch
  | .text _ _ _ => []

/-- DOM `isEqualNode` on attribute lists: same number of attributes and
each attribute of the first is present on the second (attribute order is
irrelevant; names are unique on a real element). -/
def attrsEqual (a b : List (String × String)) : Bool :=
  a.length == b.length && a.all (fun p => b.contains p)

mutual
/-- DOM `isEqualNode`: structural deep equality — node type, tag, text
content, attributes and children, recursively; the `component` expando and
the object identity are ignored. -/
def isEqualNode : RNode → RNode → Bool
  | .text _ c _, .text _ c' _ => c == c'
  | .elem _ t a ch _, .elem _ t' a' ch' _ =>
    t == t' && attrsEqual a a' && isEqualChildren ch ch'
  | .elem _ _ _ _ _, .text _ _ _ => false
  | .text _ _ _, .elem _ _ _ _ _ => false

def isEqualChildren : List RNode → List RNode → Bool
  | [], [] => true
  | x :: xs, y :: ys => isEqualNode x y && isEqualChildren xs ys
  | [], _ :: _ => false
  | _ :: _, [] => false
end

mutual
/-- `cloneNode(true)`: a deep copy of the DOM node.  Expando properties are
not cloned, so every `component` tag is dropped.  Within one reconciliation
pass a clone is only ever appended, never compared for identity, so the
model keeps the `id` fields of the copied structure. -/
def cloneNode : RNode → RNode
  | .text i c _ => .text i c none
  | .elem i t a ch _ => .elem i t a (cloneList ch) none

def cloneList : List RNode → List RNode
  | [] => []
  | x :: xs => cloneNode x :: cloneList xs
end

/-- DOM mutations performed by the reconciler, in call order. -/
inductive Mut : Type where
  | replaceWith (intoId nodeId : Nat)
  | putEventsOn (comp nodeId : Nat)
  | removeChild (parentId childId : Nat)
  | removeAttr (nodeId : Nat) (name : String)
  | appendChild (parentId childId : Nat)
  | setAttr (nodeId : Nat) (name value : String)
  | setValueProp (nodeId : Nat) (value : String)
deriving DecidableEq, Repr

/-- DOM `setAttribute` on an attribute list: overwrite in place when the
name is present, append otherwise. -/
def setAttrList (attrs : List (String × String)) (name value : String) :
    List (String × String) :=
  if attrs.any (fun p => p.1 == name) then
    attrs.map (fun p => if p.1 == name then (p.1, value) else p)
  else attrs ++ [(name, value)]

/-- The attribute-write loop of `copyNode`: set every attribute of `node`
on `into`, in order. -/
def writeAttrs (attrs : List (String × String)) :
    List (String × String) → List (String × String)
  | [] => attrs
  | (n, v) :: rest => writeAttrs (setAttrList attrs n v) rest

mutual
/-- `copyNode(into, node)` (src/reactive.js lines 260-309), returning the
node that ends up in `into`'s place together with the trace of DOM
mutations performed, in order:
1. `if (into === node) return into;`
2. replace wholesale on tag mismatch, on either side being a text node, or
   when `into` is owned and `node` is not;
3. replace wholesale and reattach the owner's events when `node` is owned
   by a different component than `into`;
4. `if (into.isEqualNode(node)) return into;`
5. otherwise truncate surplus children, drop attributes absent from
   `node`, merge children positionally, then write `node`'s attributes. -/
def copyNode (into node : RNode) : RNode × List Mut :=
  if into.id == node.id then (into, [])
  else if (into.tagName != node.tagName) || into.isText || node.isText
      || (into.component.isSome && node.component.isNone) then
    (node, [Mut.replaceWith into.id node.id])
  else if node.component.isSome && (into.component != node.component) then
    (node, [Mut.replaceWith into.id node.id,
            Mut.putEventsOn ((node.component).getD 0) node.id])
  else if isEqualNode into node then
    (into, [])
  else
    match into, node with
    | .elem iid itag iattrs ikids icomp, .elem _ _ nattrs nch _ =>
      let dropped := ikids.drop nch.length
      let shrinkMuts := dropped.map (fun c => Mut.removeChild iid c.id)
      let kept := ikids.take nch.length
      let rmAttrs := iattrs.filter (fun p => !(nattrs.any (fun q => q.1 == p.1)))
      let rmAttrMuts := rmAttrs.map (fun p => Mut.removeAttr iid p.1)
      let keptAttrs := iattrs.filter (fun p => nattrs.any (fun q => q.1 == p.1))
      let merged := mergeChildren iid kept nch
      let setMuts := nattrs.flatMap (fun p =>
        Mut.setAttr iid p.1 p.2 ::
          (if p.1 == "value" then [Mut.setValueProp iid p.2] else []))
      (.elem iid itag (writeAttrs keptAttrs nattrs) merged.1 icomp,
       shrinkMuts ++ rmAttrMuts ++ merged.2 ++ setMuts)
    | _, _ => (into, [])

/-- The child-merge loop: for each child of `node` at index i, recurse when
`into` still has a child there, otherwise append (cloning unless the child
is component-owned).  After truncation `into` never has more children than
`node`, so the first pattern is only reached with an empty first list. -/
def mergeChildren (parentId : Nat) (kids vals : List RNode) : List RNode × List Mut :=
  match kids, vals with
  | ks, [] => (ks, [])
  | [], val :: rest =>
    let appended := if (val.component).isSome then val else cloneNode val
    let merged := mergeChildren parentId [] rest
    (appended :: merged.1, Mut.appendChild parentId appended.id :: merged.2)
  | childInto :: ks, val :: rest =>
    let c := copyNode childInto val
    let merged := mergeChildren parentId ks rest
    (c.1 :: merged.1, c.2 ++ merged.2)
end

/-! ## Component events and the `createComponent` factory
(src/reactive.js lines 311-325, 388-422, 499-529) -/

/-- The cached `_listener` wrapper built by `putEvents`: a delegated
dispatcher when the binding has a selector, the listener bound to the
component otherwise. -/
inductive Wrapper : Type where
  | delegated (selector listener : JVal)
  | bound (listener : JVal)
deriving DecidableEq, Repr

/-- One entry of `this.events`: `{ type, listener, selector, _listener }`.
A field that was never set is `JVal.undef` (resp. `none` for the cache). -/
structure EvEntry where
  type : JVal
  listener : JVal
  selector : JVal
  cached : Option Wrapper
deriving DecidableEq, Repr

/-- The constructor's filter guard `(e) => e.type && e.listener`. -/
def evWellFormed (e : EvEntry) : Bool := e.type.truthy && e.listener.truthy

/-- The shallow copy `{ ...e }` of a configuration entry: a fresh object
with the same own properties. -/
def copyEntry (e : EvEntry) : EvEntry :=
  { type := e.type, listener := e.listener, selector := e.selector,
    cached := e.cached }

/-- `this.events = events.filter((e) => e.type && e.listener).map((e) => ({ ...e }));`
from the `_Comp` constructor built by `createComponent`. -/
def initInstanceEvents (events : List EvEntry) : List EvEntry :=
  (events.filter evWellFormed).map copyEntry

/-- `current._listener` construction in `putEvents`. -/
def mkListenerWrapper (e : EvEntry) : Wrapper :=
  if e.selector.truthy then .delegated e.selector e.listener
  else .bound e.listener

/-- `putEvents(el)`: for each binding, build and cache the wrapper unless
already cached, then `el.addEventListener(current.type, current._listener)`.
Returns the updated bindings and the attach calls in order. -/
def putEvents (events : List EvEntry) : List EvEntry × List (JVal × Wrapper) :=
  (events.map (fun e => { e with cached := some ((e.cached).getD (mkListenerWrapper e)) }),
   events.map (fun e => (e.type, (e.cached).getD (mkListenerWrapper e))))

/-- A heap of JavaScript array objects holding event-binding lists; an
array id models the identity of one array object, so aliasing between the
shared configuration list and per-instance lists is observable. -/
structure World where
  arrays : List (List EvEntry)

def World.get (w : World) (i : Nat) : List EvEntry := (w.arrays[i]?).getD []

def World.set (w : World) (i : Nat) (l : List EvEntry) : World := ⟨w.arrays.set i l⟩

/-- The event wiring of the `_Comp` constructor: each new instance
allocates a fresh array holding the filtered, entry-wise copied
configuration list; returns the new heap and the instance's array id. -/
def newComponentInstance (w : World) (cfgId : Nat) : World × Nat :=
  (⟨w.arrays ++ [initInstanceEvents (w.get cfgId)]⟩, w.arrays.length)

/-- `addEventListener(type, listener, selector)`: push
`{ type, listener, selector }` onto this instance's events array. -/
def addEventListenerW (w : World) (evId : Nat) (t l s : JVal) : World :=
  w.set evId (w.get evId ++ [⟨t, l, s, none⟩])

/-- The match test of `removeEventListener`'s `findIndex`. -/
def evMatches (e : EvEntry) (t l s : JVal) : Bool :=
  e.type == t && e.listener == l &&
    ((!e.selector.truthy && !s.truthy) || e.selector == s)

/-- `removeEventListener(type, listener, selector)`: splice out the first
matching entry of this instance's events array, if any. -/
def removeEventListenerW (w : World) (evId : Nat) (t l s : JVal) : World :=
  match (w.get evId).findIdx? (fun e => evMatches e t l s) with
  | some i => w.set evId ((w.get evId).eraseIdx i)
  | none => w

/-! ## Concrete scenario used for the dispatch-ordering property:
listeners registered for key "a" then key "b", one global listener, and a
`setState({b: 2, a: 1})` call that changes both keys. -/

def C6state : StateMap := [("a", .num 0), ("b", .num 0)]

def C6handler : EffectHandler :=
  { al := [("a", [.func 10]), ("b", [.func 11])], globals := [.func 20] }

def C6update : List (String × JVal) := [("b", .num 2), ("a", .num 1)]

/-! ## Helper lemmas -/

theorem lookupVal_isSome_eq_any (st : StateMap) (key : String) :
    (lookupVal st key).isSome = st.any (fun p => p.1 == key) := by
  induction st with
  | nil => rfl
  | cons p rest ih =>
    by_cases h : p.1 = key
    · have hb : (p.1 == key) = true := by simp [h]
      simp [lookupVal, List.find?_cons, hb]
    · have hb : (p.1 == key) = false := by simp [h]
      simp only [lookupVal, List.find?_cons, List.any_cons, hb] at ih ⊢
      simp [ih]

theorem updateFirst_lookup_self (st : StateMap) (key : String) (prev : JVal)
    (h : lookupVal st key = some prev) : updateFirst st key prev = st := by
  induction st with
  | nil => simp [lookupVal] at h
  | cons p rest ih =>
    by_cases hp : p.1 = key
    · have hb : (p.1 == key) = true := by simp [hp]
      simp only [lookupVal, List.find?_cons, hb, Option.map_some] at h
      injection h with h2
      simp [updateFirst, hb, ← h2]
    · have hb : (p.1 == key) = false := by simp [hp]
      simp only [lookupVal, List.find?_cons, hb] at h
      simp [updateFirst, hb, ih h]

theorem lookupVal_updateFirst (st : StateMap) (key : String) (v : JVal)
    (h : st.any (fun p => p.1 == key) = true) :
    lookupVal (updateFirst st key v) key = some v := by
  induction st with
  | nil => simp at h
  | cons p rest ih =>
    by_cases hp : p.1 = key
    · have hb : (p.1 == key) = true := by simp [hp]
      simp [updateFirst, lookupVal, List.find?_cons, hb]
    · have hb : (p.1 == key) = false := by simp [hp]
      simp only [List.any_cons, hb, Bool.false_or] at h
      simp only [updateFirst, hb, Bool.false_eq_true, if_false, lookupVal,
        List.find?_cons]
      simpa [lookupVal, hb] using ih h

theorem updateFirst_map_fst (st : StateMap) (key : String) (v : JVal) :
    (updateFirst st key v).map Prod.fst = st.map Prod.fst := by
  induction st with
  | nil => rfl
  | cons p rest ih =>
    by_cases hp : p.1 = key
    · have hb : (p.1 == key) = true := by simp [hp]
      simp [updateFirst, hb]
    · have hb : (p.1 == key) = false := by simp [hp]
      simp [updateFirst, hb, ih]

theorem change_fst_map_fst (st : StateMap) (key : String) (v : JVal) :
    ((change st key v).1).map Prod.fst = st.map Prod.fst := by
  unfold change
  split
  · exact updateFirst_map_fst st key v
  · rfl

theorem collectChanged_fst_map_fst (ns : List (String × JVal)) (st : StateMap) :
    ((collectChanged st ns).1).map Prod.fst = st.map Prod.fst := by
  induction ns generalizing st with
  | nil => rfl
  | cons p rest ih =>
    obtain ⟨k, v⟩ := p
    simp only [collectChanged]
    rw [ih, change_fst_map_fst]

theorem setState_fst (st : StateMap) (h : EffectHandler) (ns : List (String × JVal)) :
    (setState st h ns).1 = (collectChanged st ns).1 := by
  dsimp only [setState]
  split <;> rfl

theorem dispatchIgnoreGlobals_eq (h : EffectHandler) (key : String) :
    h.dispatchIgnoreGlobals key = ((lookupList h.al key).getD []).map (Ev.perKey key) := by
  unfold EffectHandler.dispatchIgnoreGlobals
  cases lookupList h.al key <;> rfl

/-! ## Claim theorems -/

/-- C1: the specification claims `add`/`addGlobal` raise a `TypeError` on a
non-callable action and leave the registry unchanged.  The code's own guard
and error message show this intent, but `!action instanceof Function`
parses as `(!action) instanceof Function`, which is false for every value,
so the code appends the non-callable value (here the number 42) without
raising, for `add` and `addGlobal` alike. -/
theorem C1_add_keeps_noncallable :
    (JVal.num 42).isCallable = false ∧
    EffectHandler.add ⟨[], []⟩ "k" (JVal.num 42) =
      .ok ⟨[("k", [JVal.num 42])], []⟩ ∧
    EffectHandler.addGlobal ⟨[], []⟩ (JVal.num 42) =
      .ok ⟨[], [JVal.num 42]⟩ ∧
    (∀ a : JVal, notActionInstanceofFunction a = false) :=
  ⟨rfl, rfl, rfl, fun _ => rfl⟩

/-- C5: `change(key, value)` returns `false` without mutation when the key
is absent; when the key is present it writes the value and reports whether
the new value differs from the stored one under strict equality (decidable
equality on `JVal`: reference ids for objects, values for primitives); on
an identical value the mapping is left unchanged, and on a different value
the new value is stored and `true` returned. -/
theorem C5_change_spec (st : StateMap) (key : String) (value : JVal) :
    (lookupVal st key = none → change st key value = (st, false)) ∧
    (∀ prev, lookupVal st key = some prev →
      change st key value = (updateFirst st key value, prev != value) ∧
      (prev = value → change st key value = (st, false)) ∧
      (prev ≠ value →
        lookupVal (change st key value).1 key = some value ∧
        (change st key value).2 = true)) := by
  constructor
  · intro hnone
    have hany : st.any (fun p => p.1 == key) = false := by
      have := lookupVal_isSome_eq_any st key
      rw [hnone] at this
      exact this.symm
    unfold change
    rw [hany]
    simp
  · intro prev hprev
    have hany : st.any (fun p => p.1 == key) = true := by
      have := lookupVal_isSome_eq_any st key
      rw [hprev] at this
      exact this.symm
    have hchange : change st key value = (updateFirst st key value, prev != value) := by
      unfold change
      rw [hany]
      simp [hprev]
    refine ⟨hchange, ?_, ?_⟩
    · intro hsame
      rw [hchange, ← hsame]
      rw [updateFirst_lookup_self st key prev hprev]
      simp
    · intro hdiff
      rw [hchange]
      refine ⟨lookupVal_updateFirst st key value hany, ?_⟩
      simp [hdiff]

/-- C5 witness: at `{a: 1}`, changing `a` to 2 stores 2 and returns `true`;
changing `a` to 1 returns `false` leaving the mapping unchanged; changing
an absent key returns `false`; replacing an object reference by a
different reference counts as a change (strict equality, not deep). -/
theorem C5_change_spec_witness :
    (change [("a", JVal.num 1)] "a" (JVal.num 2) =
      ([("a", JVal.num 2)], true)) ∧
    (change [("a", JVal.num 1)] "a" (JVal.num 1) = ([("a", JVal.num 1)], false)) ∧
    (change [("a", JVal.num 1)] "b" (JVal.num 2) = ([("a", JVal.num 1)], false)) ∧
    (change [("o", JVal.obj 0)] "o" (JVal.obj 1) = ([("o", JVal.obj 1)], true)) := by
  refine ⟨?_, ?_, ?_, ?_⟩
  · exact ((C5_change_spec [("a", JVal.num 1)] "a" (JVal.num 2)).2
      (JVal.num 1) rfl).1
  · exact ((C5_change_spec [("a", JVal.num 1)] "a" (JVal.num 1)).2
      (JVal.num 1) rfl).2.1 rfl
  · exact (C5_change_spec [("a", JVal.num 1)] "b" (JVal.num 2)).1 rfl
  · exact ((C5_change_spec [("o", JVal.obj 0)] "o" (JVal.obj 1)).2
      (JVal.obj 0) rfl).1

/-- C8: `remove(key, action)` on a key unknown to the registry returns
`false` with no effect, whatever the action argument; on a known key with
the action omitted (the default `false`) it clears the key's list and
returns `true` even when the list is already empty; with a function action
given it removes the first matching entry and returns whether a match was
found. -/
theorem C8_remove_spec (h : EffectHandler) (key : String) :
    (lookupList h.al key = none →
      ∀ a : JVal, EffectHandler.remove h key a = (h, false)) ∧
    (∀ l, lookupList h.al key = some l →
      EffectHandler.remove h key (JVal.bool false) =
        ({ h with al := setList h.al key [] }, true) ∧
      ∀ f : Nat, EffectHandler.remove h key (JVal.func f) =
        if JVal.func f ∈ l then
          ({ h with al := setList h.al key (l.erase (JVal.func f)) }, true)
        else (h, false)) := by
  constructor
  · intro hnone a
    unfold EffectHandler.remove
    rw [hnone]
  · intro l hsome
    constructor
    · unfold EffectHandler.remove
      rw [hsome]
      rfl
    · intro f
      unfold EffectHandler.remove
      rw [hsome]
      by_cases hmem : JVal.func f ∈ l
      · have hc : l.contains (JVal.func f) = true := by
          simpa [List.contains] using hmem
        simp [JVal.truthy, hc, hmem]
      · have hc : l.contains (JVal.func f) = false := by
          simpa [List.contains] using hmem
        simp [JVal.truthy, hc, hmem]

/-- C8 witness: a known key with an already-empty list is cleared with
result `true`; an unknown key yields `false` with the registry unchanged;
a function action is removed (first occurrence) with result `true`. -/
theorem C8_remove_spec_witness :
    EffectHandler.remove ⟨[("k", [])], []⟩ "k" (JVal.bool false) =
      (⟨[("k", [])], []⟩, true) ∧
    EffectHandler.remove ⟨[("k", [])], []⟩ "missing" (JVal.func 1) =
      (⟨[("k", [])], []⟩, false) ∧
    EffectHandler.remove ⟨[("k", [JVal.func 1, JVal.func 2])], []⟩ "k" (JVal.func 1) =
      (⟨[("k", [JVal.func 2])], []⟩, true) := by
  refine ⟨?_, ?_, ?_⟩
  · exact ((C8_remove_spec ⟨[("k", [])], []⟩ "k").2 [] rfl).1
  · exact (C8_remove_spec ⟨[("k", [])], []⟩ "missing").1 rfl (JVal.func 1)
  · have := ((C8_remove_spec ⟨[("k", [JVal.func 1, JVal.func 2])], []⟩ "k").2
      [JVal.func 1, JVal.func 2] rfl).2 1
    simpa using this

/-- C2: the dispatch trace of `setState` is exactly: for each changed key,
in the order the keys were supplied, that key's listeners in registration
order (the order of the stored list), with no global event interleaved;
followed — only when at least one key changed — by every global listener
exactly once, each receiving the full changed-key list, and one render.
When no key changed the trace is empty, and a render happens exactly when
some key changed. -/
theorem C2_setState_dispatch (st : StateMap) (h : EffectHandler)
    (ns : List (String × JVal)) :
    (setState st h ns).2 =
      (collectChanged st ns).2.flatMap
        (fun k => ((lookupList h.al k).getD []).map (Ev.perKey k))
      ++ (if (collectChanged st ns).2 = [] then []
          else h.globals.map (fun g => Ev.global g (collectChanged st ns).2)
            ++ [Ev.render]) ∧
    ((Ev.render ∈ (setState st h ns).2) ↔ (collectChanged st ns).2 ≠ []) := by
  dsimp only [setState]
  cases hch : (collectChanged st ns).2 with
  | nil => simp
  | cons k ks =>
    constructor
    · simp [dispatchIgnoreGlobals_eq, EffectHandler.dispatchGlobals]
    · simp

/-- C6 counterexample: with listeners registered for `a` then `b` and one
global listener, `setState({b: 2, a: 1})` (both values changed) does not
produce the claimed trace (a's listeners first); it dispatches b's
listeners first, because changed keys are dispatched in the order supplied. -/
theorem C6_counterexample :
    (setState C6state C6handler C6update).2 ≠
      [Ev.perKey "a" (.func 10), Ev.perKey "b" (.func 11),
       Ev.global (.func 20) ["b", "a"], Ev.render] ∧
    (setState C6state C6handler C6update).2 =
      [Ev.perKey "b" (.func 11), Ev.perKey "a" (.func 10),
       Ev.global (.func 20) ["b", "a"], Ev.render] :=
  ⟨by decide, rfl⟩

/-- C6 amended: `setState({b: 2, a: 1})` with both values changed invokes
b's listeners first, then a's listeners (per-key dispatch follows the
order the keys were supplied), then the global listener exactly once with
`["b", "a"]`, with no interleaving, then renders. -/
theorem C6_dispatch_order :
    (setState C6state C6handler C6update).2 =
      [Ev.perKey "b" (.func 11), Ev.perKey "a" (.func 10),
       Ev.global (.func 20) ["b", "a"], Ev.render] := rfl

/-- C7: the key set of the state is fixed: one `setState` call preserves
the key list (so keys are never added or removed, and a key absent before
is absent after — unknown keys are silently ignored without error), and so
does any sequence of `setState` calls. -/
theorem C7_state_keys_fixed (st : StateMap) (h : EffectHandler)
    (ns : List (String × JVal)) :
    ((setState st h ns).1).map Prod.fst = st.map Prod.fst ∧
    (∀ k, (lookupVal (setState st h ns).1 k).isSome = (lookupVal st k).isSome) ∧
    (∀ calls : List (List (String × JVal)),
      ((calls.foldl (fun s u => (setState s h u).1) st).map Prod.fst) =
        st.map Prod.fst) := by
  have hone : ∀ (s : StateMap) (u : List (String × JVal)),
      ((setState s h u).1).map Prod.fst = s.map Prod.fst := by
    intro s u
    rw [setState_fst]
    exact collectChanged_fst_map_fst u s
  have hany : ∀ (k : String) (s1 s2 : StateMap),
      s1.map Prod.fst = s2.map Prod.fst →
      s1.any (fun p => p.1 == k) = s2.any (fun p => p.1 == k) := by
    intro k s1
    induction s1 with
    | nil =>
      intro s2 hmap
      cases s2 with
      | nil => rfl
      | cons q qs => simp at hmap
    | cons p ps ih =>
      intro s2 hmap
      cases s2 with
      | nil => simp at hmap
      | cons q qs =>
        simp only [List.map_cons, List.cons.injEq] at hmap
        simp [List.any_cons, hmap.1, ih qs hmap.2]
  refine ⟨hone st ns, ?_, ?_⟩
  · intro k
    rw [lookupVal_isSome_eq_any, lookupVal_isSome_eq_any]
    exact hany _ _ _ (hone st ns)
  · intro calls
    induction calls generalizing st with
    | nil => rfl
    | cons u rest ih =>
      simp only [List.foldl_cons]
      rw [ih ((setState st h u).1), hone]

theorem isEqualNode_shape {a b : RNode} (h : isEqualNode a b = true) :
    a.isText = b.isText ∧ a.tagName = b.tagName := by
  cases a <;> cases b <;>
    simp_all [isEqualNode, RNode.isText, RNode.tagName]

/-- C3 counterexample.  First input: two distinct text nodes with identical
content — none of the claimed triggers holds (equal `tagName`s, not the
case that one is a text node and the other is not, no ownership on either
side), yet `copyNode` discards `into` and substitutes `node`.  Second
input: two element nodes with the same tag, both owned but by different
components — again no claimed trigger, yet wholesale replacement occurs. -/
theorem C3_counterexample :
    ((RNode.text 0 "x" none).tagName = (RNode.text 1 "x" none).tagName ∧
     (RNode.text 0 "x" none).isText = (RNode.text 1 "x" none).isText ∧
     (RNode.text 0 "x" none).component = none ∧
     (RNode.text 1 "x" none).component = none ∧
     copyNode (RNode.text 0 "x" none) (RNode.text 1 "x" none) =
       (RNode.text 1 "x" none, [Mut.replaceWith 0 1])) ∧
    ((RNode.elem 0 "div" [] [] (some 1)).tagName =
       (RNode.elem 2 "div" [] [] (some 3)).tagName ∧
     (RNode.elem 0 "div" [] [] (some 1)).isText = false ∧
     (RNode.elem 2 "div" [] [] (some 3)).isText = false ∧
     (RNode.elem 0 "div" [] [] (some 1)).component.isSome = true ∧
     (RNode.elem 2 "div" [] [] (some 3)).component.isSome = true ∧
     copyNode (RNode.elem 0 "div" [] [] (some 1))
       (RNode.elem 2 "div" [] [] (some 3)) =
       (RNode.elem 2 "div" [] [] (some 3),
        [Mut.replaceWith 0 2, Mut.putEventsOn 3 2])) :=
  ⟨⟨rfl, rfl, rfl, rfl, rfl⟩, ⟨rfl, rfl, rfl, rfl, rfl, rfl⟩⟩

/-- If the whole-replacement condition of `copyNode`'s second branch is
false and the nested-component condition of its third branch is false,
then none of the replacement triggers (as amended) holds. -/
theorem replacementTriggersFalse {into node : RNode}
    (h2 : ¬(((into.tagName != node.tagName) || into.isText || node.isText
      || (into.component.isSome && node.component.isNone)) = true))
    (h3 : ¬((node.component.isSome && (into.component != node.component)) = true)) :
    ¬(into.tagName ≠ node.tagName ∨ into.isText = true ∨ node.isText = true ∨
      (into.component.isSome = true ∧ node.component = none) ∨
      (node.component.isSome = true ∧ into.component ≠ node.component)) := by
  simp only [Bool.or_eq_true, not_or, Bool.not_eq_true] at h2
  obtain ⟨⟨⟨hbne, hit⟩, hnt⟩, hcomp⟩ := h2
  rintro (hd | hd | hd | hd | hd)
  · exact hd (by simpa using hbne)
  · rw [hit] at hd
    exact Bool.false_ne_true hd
  · rw [hnt] at hd
    exact Bool.false_ne_true hd
  · have hb : (into.component.isSome && node.component.isNone) = true := by
      rw [hd.1, hd.2]
      rfl
    rw [hcomp] at hb
    exact Bool.false_ne_true hb
  · exact h3 (by simp [hd.1, bne_iff_ne, hd.2])

/-- C3 amended: for distinct nodes, `into` is discarded and `node`
substituted in its place (the returned node is `node`, first mutation a
`replaceWith`) exactly when one of these holds: the tags differ; at least
one of the two is a text node (including both); `into` is owned by a
component while `node` is not; or `node` is owned by a component different
from `into`'s owner (in particular when `into` is unowned). -/
theorem C3_replacement_iff (into node : RNode) (h : into.id ≠ node.id) :
    ((copyNode into node).1 = node ∧
     (copyNode into node).2.head? = some (Mut.replaceWith into.id node.id)) ↔
      (into.tagName ≠ node.tagName ∨ into.isText = true ∨ node.isText = true ∨
       (into.component.isSome = true ∧ node.component = none) ∨
       (node.component.isSome = true ∧ into.component ≠ node.component)) := by
  rw [copyNode.eq_def]
  split_ifs with h1 h2 h3 h4
  · exact absurd (by simpa using h1) h
  · refine iff_of_true ⟨rfl, rfl⟩ ?_
    simp only [Bool.or_eq_true, Bool.and_eq_true, bne_iff_ne,
      Option.isNone_iff_eq_none] at h2
    tauto
  · refine iff_of_true ⟨rfl, rfl⟩ ?_
    simp only [Bool.and_eq_true, bne_iff_ne] at h3
    tauto
  · exact iff_of_false (fun hc => by simpa using hc.2)
      (replacementTriggersFalse h2 h3)
  · refine iff_of_false ?_ (replacementTriggersFalse h2 h3)
    rintro ⟨he, -⟩
    have h2f : into.isText = false ∧ node.isText = false := by
      simp only [Bool.or_eq_true, not_or, Bool.not_eq_true] at h2
      exact ⟨h2.1.1.2, h2.1.2⟩
    rcases into with ⟨iid, itag, iattrs, ikids, icomp⟩ | ⟨iid, ic, icomp⟩ <;>
      rcases node with ⟨nid, ntag, nattrs, nch, ncomp⟩ | ⟨nid, nc, ncomp⟩
    · simp only [RNode.id, ne_eq] at h
      simp only [RNode.elem.injEq] at he
      exact h he.1
    · simp [RNode.isText] at h2f
    · simp [RNode.isText] at h2f
    · simp [RNode.isText] at h2f

/-- C3 witness: a tag mismatch on distinct unowned elements forces the
substitution of `node`. -/
theorem C3_replacement_iff_witness :
    (copyNode (RNode.elem 0 "p" [] [] none) (RNode.elem 1 "div" [] [] none)).1 =
      RNode.elem 1 "div" [] [] none :=
  ((C3_replacement_iff (RNode.elem 0 "p" [] [] none)
      (RNode.elem 1 "div" [] [] none) (by decide)).mpr
    (Or.inl (by decide))).1

/-- C4 counterexample: two structurally deep-equal trees for which
`copyNode` does not return `into` unchanged but replaces it wholesale
(one mutation): two distinct text nodes with identical content, and two
deep-equal elements where `into` is component-owned but `node` is not.
The deep-equality short-circuit sits after the replacement triggers, so
those triggers win even on deep-equal inputs. -/
theorem C4_counterexample :
    (isEqualNode (RNode.text 0 "x" none) (RNode.text 4 "x" none) = true ∧
     copyNode (RNode.text 0 "x" none) (RNode.text 4 "x" none) =
       (RNode.text 4 "x" none, [Mut.replaceWith 0 4])) ∧
    (isEqualNode (RNode.elem 5 "div" [] [] (some 7))
       (RNode.elem 6 "div" [] [] none) = true ∧
     copyNode (RNode.elem 5 "div" [] [] (some 7))
       (RNode.elem 6 "div" [] [] none) =
       (RNode.elem 6 "div" [] [] none, [Mut.replaceWith 5 6])) :=
  ⟨⟨rfl, rfl⟩, ⟨rfl, rfl⟩⟩

/-- C4 amended: for every pair of structurally deep-equal trees that are
element (non-text) nodes and on which no ownership trigger fires (`into`
owned with `node` unowned, or `node` owned by a different owner),
`copyNode` returns `into` itself and performs zero mutations — no
attribute write or removal, no child insertion, removal or replacement,
on `into` or any descendant. -/
theorem C4_deep_equal_no_mutation (into node : RNode)
    (heq : isEqualNode into node = true)
    (htext : into.isText = false)
    (hown1 : ¬(into.component.isSome = true ∧ node.component = none))
    (hown2 : ¬(node.component.isSome = true ∧ into.component ≠ node.component)) :
    copyNode into node = (into, []) := by
  obtain ⟨hsh, htag⟩ := isEqualNode_shape heq
  rw [copyNode.eq_def]
  split_ifs with h1 h2 h3
  · rfl
  · exfalso
    simp only [Bool.or_eq_true, Bool.and_eq_true, bne_iff_ne,
      Option.isNone_iff_eq_none] at h2
    rcases h2 with ((hc | hc) | hc) | hc
    · exact hc htag
    · rw [htext] at hc
      exact Bool.false_ne_true hc
    · rw [← hsh, htext] at hc
      exact Bool.false_ne_true hc
    · exact hown1 hc
  · exfalso
    simp only [Bool.and_eq_true, bne_iff_ne] at h3
    exact hown2 h3
  · rfl

/-- C4 witness: two deep-equal unowned element trees with an attribute and
a text child are reconciled with zero mutations and `into` returned. -/
theorem C4_deep_equal_no_mutation_witness :
    copyNode (RNode.elem 0 "div" [("id", "z")] [RNode.text 2 "hi" none] none)
      (RNode.elem 1 "div" [("id", "z")] [RNode.text 3 "hi" none] none) =
      (RNode.elem 0 "div" [("id", "z")] [RNode.text 2 "hi" none] none, []) :=
  C4_deep_equal_no_mutation _ _ rfl rfl (by simp [RNode.component])
    (by simp [RNode.component])

theorem World.get_set_ne (w : World) (i j : Nat) (l : List EvEntry) (hij : i ≠ j) :
    (w.set i l).get j = w.get j := by
  unfold World.get World.set
  rw [List.getElem?_set_ne hij]

theorem addEventListenerW_get_other (w : World) (evId j : Nat) (t l s : JVal)
    (hij : evId ≠ j) : (addEventListenerW w evId t l s).get j = w.get j := by
  unfold addEventListenerW
  exact World.get_set_ne _ _ _ _ hij

theorem removeEventListenerW_get_other (w : World) (evId j : Nat) (t l s : JVal)
    (hij : evId ≠ j) : (removeEventListenerW w evId t l s).get j = w.get j := by
  unfold removeEventListenerW
  split
  · exact World.get_set_ne _ _ _ _ hij
  · rfl

/-- C9: constructing two instances from the same configuration array gives
each its own fresh events array (distinct from the configuration array and
from each other), each initially the filtered copy of the configuration;
construction leaves the configuration array unchanged; and
`addEventListener`/`removeEventListener` on the first instance's array
leave every other array — the sibling's and the configuration's —
unchanged. -/
theorem C9_instance_events_isolated (w : World) (cfgId : Nat)
    (hcfg : cfgId < w.arrays.length) (t l s : JVal) :
    (newComponentInstance w cfgId).2 ≠ cfgId ∧
    (newComponentInstance (newComponentInstance w cfgId).1 cfgId).2 ≠ cfgId ∧
    (newComponentInstance w cfgId).2 ≠
      (newComponentInstance (newComponentInstance w cfgId).1 cfgId).2 ∧
    ((newComponentInstance (newComponentInstance w cfgId).1 cfgId).1).get
        (newComponentInstance w cfgId).2 = initInstanceEvents (w.get cfgId) ∧
    ((newComponentInstance (newComponentInstance w cfgId).1 cfgId).1).get
        (newComponentInstance (newComponentInstance w cfgId).1 cfgId).2 =
      initInstanceEvents (w.get cfgId) ∧
    ((newComponentInstance (newComponentInstance w cfgId).1 cfgId).1).get cfgId =
      w.get cfgId ∧
    (∀ j, j ≠ (newComponentInstance w cfgId).2 →
      (addEventListenerW (newComponentInstance (newComponentInstance w cfgId).1 cfgId).1
          (newComponentInstance w cfgId).2 t l s).get j =
        ((newComponentInstance (newComponentInstance w cfgId).1 cfgId).1).get j ∧
      (removeEventListenerW (newComponentInstance (newComponentInstance w cfgId).1 cfgId).1
          (newComponentInstance w cfgId).2 t l s).get j =
        ((newComponentInstance (newComponentInstance w cfgId).1 cfgId).1).get j) := by
  have hget1 : ((newComponentInstance w cfgId).1).get cfgId = w.get cfgId := by
    show ((w.arrays ++ [initInstanceEvents (w.get cfgId)])[cfgId]?).getD [] = _
    rw [List.getElem?_append_left hcfg]
    rfl
  have hw2 : (newComponentInstance (newComponentInstance w cfgId).1 cfgId).1 =
      ⟨(w.arrays ++ [initInstanceEvents (w.get cfgId)]) ++
        [initInstanceEvents (w.get cfgId)]⟩ := by
    show (⟨(w.arrays ++ [initInstanceEvents (w.get cfgId)]) ++
        [initInstanceEvents (((newComponentInstance w cfgId).1).get cfgId)]⟩ : World) = _
    rw [hget1]
  have he1 : (newComponentInstance w cfgId).2 = w.arrays.length := rfl
  have he2 : (newComponentInstance (newComponentInstance w cfgId).1 cfgId).2 =
      w.arrays.length + 1 := by
    show ((newComponentInstance w cfgId).1).arrays.length = w.arrays.length + 1
    simp [newComponentInstance]
  refine ⟨by omega, by omega, by omega, ?_, ?_, ?_, ?_⟩
  · rw [hw2, he1]
    show (((w.arrays ++ [initInstanceEvents (w.get cfgId)]) ++
        [initInstanceEvents (w.get cfgId)])[w.arrays.length]?).getD [] = _
    rw [List.getElem?_append_left (by simp), List.getElem?_concat_length]
    rfl
  · rw [hw2, he2]
    show (((w.arrays ++ [initInstanceEvents (w.get cfgId)]) ++
        [initInstanceEvents (w.get cfgId)])[w.arrays.length + 1]?).getD [] = _
    have : w.arrays.length + 1 = (w.arrays ++ [initInstanceEvents (w.get cfgId)]).length := by
      simp
    rw [this, List.getElem?_concat_length]
    rfl
  · rw [hw2]
    show (((w.arrays ++ [initInstanceEvents (w.get cfgId)]) ++
        [initInstanceEvents (w.get cfgId)])[cfgId]?).getD [] = _
    rw [List.getElem?_append_left (by simp; omega), List.getElem?_append_left hcfg]
    rfl
  · intro j hj
    exact ⟨addEventListenerW_get_other _ _ _ _ _ _ (fun hh => hj hh.symm),
      removeEventListenerW_get_other _ _ _ _ _ _ (fun hh => hj hh.symm)⟩

/-- C9 witness: one configuration array with a single well-formed binding;
after constructing two instances, mutating the first instance's events via
`addEventListener` leaves the sibling's array and the configuration array
untouched. -/
theorem C9_instance_events_isolated_witness :
    (newComponentInstance (⟨[[⟨.str "click", .func 1, .jsNull, none⟩]]⟩ : World) 0).2 ≠ 0 ∧
    (newComponentInstance (newComponentInstance
        (⟨[[⟨.str "click", .func 1, .jsNull, none⟩]]⟩ : World) 0).1 0).2 ≠ 0 ∧
    (newComponentInstance (⟨[[⟨.str "click", .func 1, .jsNull, none⟩]]⟩ : World) 0).2 ≠
      (newComponentInstance (newComponentInstance
        (⟨[[⟨.str "click", .func 1, .jsNull, none⟩]]⟩ : World) 0).1 0).2 ∧
    (newComponentInstance (newComponentInstance
        (⟨[[⟨.str "click", .func 1, .jsNull, none⟩]]⟩ : World) 0).1 0).1.get
      (newComponentInstance (⟨[[⟨.str "click", .func 1, .jsNull, none⟩]]⟩ : World) 0).2 =
      initInstanceEvents ((⟨[[⟨.str "click", .func 1, .jsNull, none⟩]]⟩ : World).get 0) ∧
    (newComponentInstance (newComponentInstance
        (⟨[[⟨.str "click", .func 1, .jsNull, none⟩]]⟩ : World) 0).1 0).1.get
      (newComponentInstance (newComponentInstance
        (⟨[[⟨.str "click", .func 1, .jsNull, none⟩]]⟩ : World) 0).1 0).2 =
      initInstanceEvents ((⟨[[⟨.str "click", .func 1, .jsNull, none⟩]]⟩ : World).get 0) ∧
    (newComponentInstance (newComponentInstance
        (⟨[[⟨.str "click", .func 1, .jsNull, none⟩]]⟩ : World) 0).1 0).1.get 0 =
      (⟨[[⟨.str "click", .func 1, .jsNull, none⟩]]⟩ : World).get 0 ∧
    (∀ j, j ≠ (newComponentInstance (⟨[[⟨.str "click", .func 1, .jsNull, none⟩]]⟩ : World) 0).2 →
      (addEventListenerW (newComponentInstance (newComponentInstance
          (⟨[[⟨.str "click", .func 1, .jsNull, none⟩]]⟩ : World) 0).1 0).1
          (newComponentInstance (⟨[[⟨.str "click", .func 1, .jsNull, none⟩]]⟩ : World) 0).2
          (.str "keyup") (.func 2) .jsNull).get j =
        (newComponentInstance (newComponentInstance
          (⟨[[⟨.str "click", .func 1, .jsNull, none⟩]]⟩ : World) 0).1 0).1.get j ∧
      (removeEventListenerW (newComponentInstance (newComponentInstance
          (⟨[[⟨.str "click", .func 1, .jsNull, none⟩]]⟩ : World) 0).1 0).1
          (newComponentInstance (⟨[[⟨.str "click", .func 1, .jsNull, none⟩]]⟩ : World) 0).2
          (.str "keyup") (.func 2) .jsNull).get j =
        (newComponentInstance (newComponentInstance
          (⟨[[⟨.str "click", .func 1, .jsNull, none⟩]]⟩ : World) 0).1 0).1.get j) :=
  C9_instance_events_isolated ⟨[[⟨.str "click", .func 1, .jsNull, none⟩]]⟩ 0
    (by decide) (.str "keyup") (.func 2) .jsNull

theorem copyEntry_eq_self (e : EvEntry) : copyEntry e = e := rfl

/-- C10: the factory constructor stores on the instance exactly the
configuration entries whose `type` and `listener` are both truthy, in
their original order (as fresh shallow copies, which coincide with the
originals value-wise); an entry with a missing or falsy `type` or
`listener` is never stored, every stored entry is well-formed, and
`putEvents` attaches exactly one listener per stored entry — so a dropped
entry is never attached. -/
theorem C10_events_filtered (cfg : List EvEntry) :
    initInstanceEvents cfg = cfg.filter evWellFormed ∧
    (∀ e ∈ cfg, evWellFormed e = false → e ∉ initInstanceEvents cfg) ∧
    (∀ e ∈ initInstanceEvents cfg, e.type.truthy = true ∧ e.listener.truthy = true) ∧
    (putEvents (initInstanceEvents cfg)).2 =
      (cfg.filter evWellFormed).map
        (fun e => (e.type, (e.cached).getD (mkListenerWrapper e))) := by
  have hcopy : initInstanceEvents cfg = cfg.filter evWellFormed := by
    unfold initInstanceEvents
    exact List.map_id _
  refine ⟨hcopy, ?_, ?_, ?_⟩
  · intro e hmem hwf hin
    rw [hcopy] at hin
    rw [List.mem_filter] at hin
    rw [hwf] at hin
    exact Bool.false_ne_true hin.2
  · intro e hin
    rw [hcopy, List.mem_filter] at hin
    have := hin.2
    unfold evWellFormed at this
    exact ⟨(Bool.and_eq_true _ _ |>.mp this).1, (Bool.and_eq_true _ _ |>.mp this).2⟩
  · rw [hcopy]
    rfl

/-- C10 witness: a configuration with one well-formed binding and one
binding whose `type` is missing (`undefined`): the malformed entry is not
stored, and the attach trace holds exactly the well-formed binding. -/
theorem C10_events_filtered_witness :
    (⟨.undef, .func 2, .jsNull, none⟩ : EvEntry) ∉
      initInstanceEvents [⟨.str "click", .func 1, .jsNull, none⟩,
        ⟨.undef, .func 2, .jsNull, none⟩] ∧
    (putEvents (initInstanceEvents [⟨.str "click", .func 1, .jsNull, none⟩,
        ⟨.undef, .func 2, .jsNull, none⟩])).2 =
      [(.str "click", Wrapper.bound (.func 1))] := by
  constructor
  · exact (C10_events_filtered _).2.1 _ (by decide) rfl
  · rw [(C10_events_filtered _).2.2.2]
    rfl
